import Mathlib

/-!
# StellarCert — issuer-scoped API-key rate limiting, shallow embedding

This file embeds the rate-limiting core of the repository
(`src/backend/src/common/rate-limiting/rate-limit.service.ts`, whose body is
visible in `src/backend/src/common/common.module.ts`, together with the guard
in `src/unnamed/part_007` and the controller in `src/unnamed/part_009`) and
proves/refutes the frozen claims about it.

Modelling conventions:
* JS timestamps (`Date.now()`) and counters are `Nat`; the JS comparison
  `now - windowStart >= windowMs` is written `windowStart + windowMs ≤ now`,
  which is the same inequality over the integers.
* `Math.max(limit - count, 0)` is `Nat` truncated subtraction `limit - count`,
  which is exactly `max (limit - count) 0` over the integers.
* `Math.floor(limit * 0.8)` is modelled as `limit * 4 / 5` (Nat division).
  For every limit below 2^50 the double-precision product `limit * 0.8`
  floors to the same value, so the two agree on all representable configs.
* The Bull queue and the fire-and-forget `enqueueExceeded`/`notifyUpgrade`
  calls are modelled by recording the dispatched job descriptors; a variant
  `consumeQ` threads an arbitrary enqueue function to state independence
  of the decision from queue behaviour.
* JS `Map` (insertion-ordered, last write wins) is an association list with
  in-place update (`mapSet`).
-/

namespace StellarCert

/-- `enum IssuerTier { FREE = 'free', PAID = 'paid' }`. -/
inductive IssuerTier where
  | FREE
  | PAID
deriving DecidableEq, Repr

/-- `interface RateLimitResult { allowed; limit; remaining; resetAt }`. -/
structure RateLimitResult where
  allowed : Bool
  limit : Nat
  remaining : Nat
  resetAt : Nat
deriving DecidableEq, Repr

/-- `interface UsageBucket { windowStart; count; tier; notifiedUpgrade }`. -/
structure UsageBucket where
  windowStart : Nat
  count : Nat
  tier : IssuerTier
  notifiedUpgrade : Bool
deriving DecidableEq, Repr

/-- `interface CachedIssuer { issuerId; tier; cacheUntil }`. -/
structure CachedIssuer where
  issuerId : String
  tier : IssuerTier
  cacheUntil : Nat
deriving DecidableEq, Repr

/-- `interface IssuerContext { id; tier }` (renamed field-wise as in source). -/
structure IssuerContext where
  id : String
  tier : IssuerTier
deriving DecidableEq, Repr

/-- The three configuration values read in the service constructor:
`RATE_LIMIT_WINDOW_MS`, `RATE_LIMIT_FREE_PER_WINDOW`,
`RATE_LIMIT_PAID_PER_WINDOW` (defaults 60000, 60, 600). -/
structure RateLimitConfig where
  windowMs : Nat
  freeLimit : Nat
  paidLimit : Nat
deriving DecidableEq, Repr

/-- Job descriptors pushed onto the `rate-limit-queue`:
`RateLimitJobType.EXCEEDED` with payload
`{issuerId, tier, route, timestamp, limit, count}` and
`RateLimitJobType.UPGRADE_NOTIFICATION` with payload
`{issuerId, route, limit, count}`. -/
inductive RLJob where
  | exceeded (issuerId : String) (tier : IssuerTier) (route : String)
      (timestamp : Nat) (limit : Nat) (count : Nat)
  | upgradeNotify (issuerId : String) (route : String) (limit : Nat) (count : Nat)
deriving DecidableEq, Repr

/-- `true` exactly on `EXCEEDED` jobs. -/
def RLJob.isExceeded : RLJob → Bool
  | .exceeded .. => true
  | _ => false

/-- `true` exactly on `UPGRADE_NOTIFICATION` jobs. -/
def RLJob.isUpgrade : RLJob → Bool
  | .upgradeNotify .. => true
  | _ => false

/-- JS `Map.get`: lookup in the insertion-ordered association list. -/
def mapGet {β : Type} (m : List (String × β)) (k : String) : Option β :=
  match m with
  | [] => none
  | (k', v) :: rest => if k' = k then some v else mapGet rest k

/-- JS `Map.set`: overwrite in place if present, else append. -/
def mapSet {β : Type} (m : List (String × β)) (k : String) (v : β) :
    List (String × β) :=
  match m with
  | [] => [(k, v)]
  | (k', v') :: rest =>
      if k' = k then (k, v) :: rest else (k', v') :: mapSet rest k v

/-- `this.usage`, the service's in-memory bucket map. -/
structure RateLimitState where
  usage : List (String × UsageBucket)
deriving DecidableEq, Repr

/-- `const limit = tier === IssuerTier.PAID ? this.paidLimit : this.freeLimit`. -/
def tierLimit (cfg : RateLimitConfig) (tier : IssuerTier) : Nat :=
  if tier = IssuerTier.PAID then cfg.paidLimit else cfg.freeLimit

/-- `Math.floor(limit * 0.8)` (see file header for the float/Nat argument). -/
def upgradeThreshold (limit : Nat) : Nat :=
  limit * 4 / 5

/-- One `consume` call, viewed at the single bucket it touches: returns the
bucket that ends up stored under the key, the `RateLimitResult`, and the list
of queue jobs whose dispatch was attempted (in order).  This is the body of
`RateLimitService.consume` after the `usage.get`, with the final `usage.set`
factored out into `consume` below. -/
def stepBucket (cfg : RateLimitConfig) (issuerId : String) (tier : IssuerTier)
    (routeKey : String) (now : Nat) (existing : Option UsageBucket) :
    UsageBucket × RateLimitResult × List RLJob :=
  let limit := tierLimit cfg tier
  -- `if (!bucket) { bucket = { windowStart: now, count: 0, tier, notifiedUpgrade: false } }`
  let b0 :=
    match existing with
    | some b => b
    | none => ⟨now, 0, tier, false⟩
  -- `if (now - bucket.windowStart >= this.windowMs) { reset in place }`
  let b1 : UsageBucket :=
    if b0.windowStart + cfg.windowMs ≤ now then ⟨now, 0, tier, false⟩ else b0
  if limit ≤ b1.count then
    -- denial path: enqueueExceeded, no increment
    (b1,
     ⟨false, limit, 0, b1.windowStart + cfg.windowMs⟩,
     [RLJob.exceeded issuerId tier routeKey now limit b1.count])
  else
    -- `bucket.count += 1`
    let b2 : UsageBucket := ⟨b1.windowStart, b1.count + 1, b1.tier, b1.notifiedUpgrade⟩
    let remaining := limit - b2.count
    let resetAt := b2.windowStart + cfg.windowMs
    if tier = IssuerTier.FREE ∧ b2.notifiedUpgrade = false ∧
        upgradeThreshold limit ≤ b2.count then
      (⟨b2.windowStart, b2.count, b2.tier, true⟩,
       ⟨true, limit, remaining, resetAt⟩,
       [RLJob.upgradeNotify issuerId routeKey limit b2.count])
    else
      (b2, ⟨true, limit, remaining, resetAt⟩, [])

/-- Output of one `consume` call: the returned `RateLimitResult`, the updated
service state, and the queue jobs whose dispatch was attempted. -/
structure ConsumeOutput where
  result : RateLimitResult
  state : RateLimitState
  jobs : List RLJob
deriving DecidableEq, Repr

/-- `RateLimitService.consume(issuerId, tier, routeKey)` at time `now`:
bucket key is `` `${issuerId}:${routeKey}` ``; the touched bucket is written
back (the source mutates the bucket object held in the map in place). -/
def consume (cfg : RateLimitConfig) (st : RateLimitState) (issuerId : String)
    (tier : IssuerTier) (routeKey : String) (now : Nat) : ConsumeOutput :=
  let key := issuerId ++ ":" ++ routeKey
  let s := stepBucket cfg issuerId tier routeKey now (mapGet st.usage key)
  ⟨s.2.1, ⟨mapSet st.usage key s.1⟩, s.2.2⟩

/-- `consume` with the queue made explicit: `enq` is the enqueue attempt
(performed exactly where the source calls `enqueueExceeded` / `notifyUpgrade`,
fire-and-forget), threading an arbitrary queue representation `Q`.  Different
`enq` functions model enqueue success, failure, or partial failure. -/
def consumeQ {Q : Type} (cfg : RateLimitConfig) (enq : Q → RLJob → Q) (q : Q)
    (st : RateLimitState) (issuerId : String) (tier : IssuerTier)
    (routeKey : String) (now : Nat) : RateLimitResult × RateLimitState × Q :=
  let key := issuerId ++ ":" ++ routeKey
  let limit := tierLimit cfg tier
  let b0 :=
    match mapGet st.usage key with
    | some b => b
    | none => (⟨now, 0, tier, false⟩ : UsageBucket)
  let b1 : UsageBucket :=
    if b0.windowStart + cfg.windowMs ≤ now then ⟨now, 0, tier, false⟩ else b0
  if limit ≤ b1.count then
    (⟨false, limit, 0, b1.windowStart + cfg.windowMs⟩,
     ⟨mapSet st.usage key b1⟩,
     enq q (RLJob.exceeded issuerId tier routeKey now limit b1.count))
  else
    let b2 : UsageBucket := ⟨b1.windowStart, b1.count + 1, b1.tier, b1.notifiedUpgrade⟩
    let remaining := limit - b2.count
    let resetAt := b2.windowStart + cfg.windowMs
    if tier = IssuerTier.FREE ∧ b2.notifiedUpgrade = false ∧
        upgradeThreshold limit ≤ b2.count then
      (⟨true, limit, remaining, resetAt⟩,
       ⟨mapSet st.usage key ⟨b2.windowStart, b2.count, b2.tier, true⟩⟩,
       enq q (RLJob.upgradeNotify issuerId routeKey limit b2.count))
    else
      (⟨true, limit, remaining, resetAt⟩, ⟨mapSet st.usage key b2⟩, q)

/-- One request hitting `consume`, as issued by the guard. -/
structure ConsumeCall where
  issuerId : String
  tier : IssuerTier
  routeKey : String
  now : Nat
deriving DecidableEq, Repr

/-- A sequence of `consume` calls against one service instance: final state
plus, per call, the returned result and the dispatched jobs. -/
def consumeTrace (cfg : RateLimitConfig) :
    RateLimitState → List ConsumeCall →
      RateLimitState × List (RateLimitResult × List RLJob)
  | st, [] => (st, [])
  | st, c :: rest =>
      let out := consume cfg st c.issuerId c.tier c.routeKey c.now
      let r := consumeTrace cfg out.state rest
      (r.1, (out.result, out.jobs) :: r.2)

/-- Calls of one issuer on one route at the given times. -/
def uniformCalls (issuerId : String) (tier : IssuerTier) (routeKey : String)
    (times : List Nat) : List ConsumeCall :=
  times.map fun t => ⟨issuerId, tier, routeKey, t⟩

/-- The same sequence of calls, tracked at the single bucket they touch. -/
def bucketRun (cfg : RateLimitConfig) (issuerId : String) (tier : IssuerTier)
    (routeKey : String) :
    Option UsageBucket → List Nat →
      Option UsageBucket × List (RateLimitResult × List RLJob)
  | b, [] => (b, [])
  | b, now :: rest =>
      let s := stepBucket cfg issuerId tier routeKey now b
      let r := bucketRun cfg issuerId tier routeKey (some s.1) rest
      (r.1, (s.2.1, s.2.2) :: r.2)

/-- JS `String.prototype.split` with a one-character separator, over the
character list (structural recursion, so concrete instances evaluate):
`"a:b:c"` splits to `["a", "b", "c"]`, `":b"` to `["", "b"]`, `"a:"` to
`["a", ""]`. -/
def splitChars (sep : Char) : List Char → List (List Char)
  | [] => [[]]
  | c :: rest =>
      let r := splitChars sep rest
      if c = sep then [] :: r
      else
        match r with
        | [] => [[c]]
        | g :: gs => (c :: g) :: gs

/-- JS `s.split(sep)` for a one-character separator. -/
def jsSplit (s : String) (sep : Char) : List String :=
  (splitChars sep s.data).map List.asString

/-- One row of `getUsageSummary`. -/
structure UsageSummaryRow where
  issuerId : String
  route : String
  tier : IssuerTier
  count : Nat
  limit : Nat
  resetAt : Nat
deriving DecidableEq, Repr

/-- `RateLimitService.getUsageSummary()` at time `now`: skips buckets whose
window has expired; recovers `issuerId` and `route` by `key.split(':')` and
array destructuring, i.e. the first and the second colon-separated segment of
the key (`parts.getD i ""` stands for the destructured element; every key
built by `consume` contains at least one colon, so both positions exist
whenever `route` is colon-free). -/
def getUsageSummary (cfg : RateLimitConfig) (st : RateLimitState) (now : Nat) :
    List UsageSummaryRow :=
  st.usage.filterMap fun kv =>
    if kv.2.windowStart + cfg.windowMs ≤ now then
      none
    else
      let parts := jsSplit kv.1 ':'
      some
        { issuerId := parts.getD 0 ""
          route := parts.getD 1 ""
          tier := kv.2.tier
          count := kv.2.count
          limit := tierLimit cfg kv.2.tier
          resetAt := kv.2.windowStart + cfg.windowMs }

/-- The fields of the durable `Issuer` entity that `resolveIssuer` consults
(`issuer.entity.ts`): `id`, `apiKeyHash` (nullable), `isActive`, `tier`
(nullable at the TS level; `resolveIssuer` defaults it with `|| FREE`). -/
structure StoredIssuer where
  id : String
  apiKeyHash : Option String
  isActive : Bool
  tier : Option IssuerTier
deriving DecidableEq, Repr

/-- `this.issuerRepository.findOne({ where: { apiKeyHash, isActive: true } })`:
the first stored issuer that is active and whose stored hash equals the
presented hash. -/
def findActiveIssuerByKeyHash (store : List StoredIssuer) (h : String) :
    Option StoredIssuer :=
  store.find? fun i => i.isActive && i.apiKeyHash == some h

/-- Output of one `resolveIssuer` call: the returned identity (or null), the
updated cache, and whether the durable-store lookup was performed. -/
structure ResolveOutput where
  result : Option IssuerContext
  cache : List (String × CachedIssuer)
  didLookup : Bool
deriving DecidableEq, Repr

/-- `RateLimitService.resolveIssuer(apiKey)` at time `now`, with the one-way
hash and the durable store passed explicitly (the source uses SHA-256 and a
TypeORM repository; both are collaborators of the cache logic).  A cached
entry is served iff `cached.cacheUntil > now`; otherwise the lookup runs and,
on success, the cache entry is overwritten with `cacheUntil = now + 5*60000`. -/
def resolveIssuer (hashFn : String → String) (store : List StoredIssuer)
    (cache : List (String × CachedIssuer)) (apiKey : String) (now : Nat) :
    ResolveOutput :=
  let hit :=
    match mapGet cache apiKey with
    | some cached => if now < cached.cacheUntil then some cached else none
    | none => none
  match hit with
  | some cached => ⟨some ⟨cached.issuerId, cached.tier⟩, cache, false⟩
  | none =>
    let apiKeyHash := hashFn apiKey
    match findActiveIssuerByKeyHash store apiKeyHash with
    | none => ⟨none, cache, true⟩
    | some issuer =>
      -- `const tier = issuer.tier || IssuerTier.FREE`
      let tier := issuer.tier.getD IssuerTier.FREE
      ⟨some ⟨issuer.id, tier⟩,
       mapSet cache apiKey ⟨issuer.id, tier, now + 5 * 60000⟩,
       true⟩

/-- A sequence of `resolveIssuer` calls `(apiKey, now)` against one fixed
hash function and one fixed durable store, folding the cache. -/
def resolveTrace (hashFn : String → String) (store : List StoredIssuer) :
    List (String × CachedIssuer) → List (String × Nat) →
      List (String × CachedIssuer)
  | cache, [] => cache
  | cache, (k, t) :: rest =>
      resolveTrace hashFn store (resolveIssuer hashFn store cache k t).cache rest

/-- The request fields `RateLimitGuard.canActivate` reads to derive the route
key: `(request as any).route?.path`, `(request as any).originalUrl`,
`request.url`. -/
structure GuardRequest where
  routePath : Option String
  originalUrl : String
  url : String
deriving DecidableEq, Repr

/-- `const routePath = request.route?.path || request.originalUrl || request.url`
— JS `||` falls through on the falsy values `undefined` and `""`. -/
def selectRouteKey (r : GuardRequest) : String :=
  match r.routePath with
  | some p =>
      if p = "" then (if r.originalUrl = "" then r.url else r.originalUrl) else p
  | none => if r.originalUrl = "" then r.url else r.originalUrl

/-! ## Basic lemmas about the map and the single step -/

@[simp]
lemma tierLimit_free (cfg : RateLimitConfig) :
    tierLimit cfg IssuerTier.FREE = cfg.freeLimit := rfl

@[simp]
lemma tierLimit_paid (cfg : RateLimitConfig) :
    tierLimit cfg IssuerTier.PAID = cfg.paidLimit := rfl

@[simp]
lemma mapGet_mapSet_self {β : Type} (m : List (String × β)) (k : String) (v : β) :
    mapGet (mapSet m k v) k = some v := by
  induction m with
  | nil => simp [mapGet, mapSet]
  | cons kv rest ih =>
      by_cases h : kv.1 = k <;> simp [mapGet, mapSet, h, ih]

lemma mapGet_mapSet_or {β : Type} (m : List (String × β)) (k k' : String)
    (v : β) (v' : β) (h : mapGet (mapSet m k v) k' = some v') :
    (k' = k ∧ v' = v) ∨ mapGet m k' = some v' := by
  induction m with
  | nil =>
      simp only [mapSet, mapGet] at h
      by_cases hk : k = k'
      · rw [if_pos hk] at h
        exact Or.inl ⟨hk.symm, (Option.some_inj.mp h).symm⟩
      · rw [if_neg hk] at h
        exact absurd h (by simp)
  | cons kv rest ih =>
      by_cases hk : kv.1 = k
      · rw [show kv = (kv.1, kv.2) from rfl, hk] at h ⊢
        simp only [mapSet, if_pos rfl, mapGet] at h ⊢
        by_cases hk' : k = k'
        · rw [if_pos hk'] at h ⊢
          exact Or.inl ⟨hk'.symm, (Option.some_inj.mp h).symm⟩
        · rw [if_neg hk'] at h ⊢
          exact Or.inr h
      · rw [show kv = (kv.1, kv.2) from rfl] at h ⊢
        simp only [mapSet, if_neg hk, mapGet] at h ⊢
        by_cases hk' : kv.1 = k'
        · rw [if_pos hk'] at h ⊢
          exact Or.inr h
        · rw [if_neg hk'] at h ⊢
          exact ih h

/-- Creating the bucket lazily is the same as having a fresh bucket stored. -/
lemma stepBucket_none (cfg : RateLimitConfig) (iss : String) (tr : IssuerTier)
    (rk : String) (now : Nat) :
    stepBucket cfg iss tr rk now none =
      stepBucket cfg iss tr rk now (some ⟨now, 0, tr, false⟩) := rfl

/-- An expired bucket behaves like a fresh bucket at `now`. -/
lemma stepBucket_reset (cfg : RateLimitConfig) (iss : String) (tr : IssuerTier)
    (rk : String) (now : Nat) (b : UsageBucket)
    (hr : b.windowStart + cfg.windowMs ≤ now) :
    stepBucket cfg iss tr rk now (some b) =
      stepBucket cfg iss tr rk now (some ⟨now, 0, tr, false⟩) := by
  unfold stepBucket
  dsimp only
  rw [if_pos hr, ite_self]

/-- In-window denied step: bucket untouched, one `EXCEEDED` job. -/
lemma stepBucket_denied (cfg : RateLimitConfig) (iss : String) (tr : IssuerTier)
    (rk : String) (now : Nat) (b : UsageBucket)
    (hnr : now < b.windowStart + cfg.windowMs)
    (hd : tierLimit cfg tr ≤ b.count) :
    stepBucket cfg iss tr rk now (some b) =
      (b, ⟨false, tierLimit cfg tr, 0, b.windowStart + cfg.windowMs⟩,
       [RLJob.exceeded iss tr rk now (tierLimit cfg tr) b.count]) := by
  unfold stepBucket
  dsimp only
  rw [if_neg (show ¬ (b.windowStart + cfg.windowMs ≤ now) by omega), if_pos hd]

/-- In-window allowed step: count incremented; the upgrade branch taken
exactly under the source's condition. -/
lemma stepBucket_allowed (cfg : RateLimitConfig) (iss : String) (tr : IssuerTier)
    (rk : String) (now : Nat) (b : UsageBucket)
    (hnr : now < b.windowStart + cfg.windowMs)
    (ha : b.count < tierLimit cfg tr) :
    stepBucket cfg iss tr rk now (some b) =
      if tr = IssuerTier.FREE ∧ b.notifiedUpgrade = false ∧
          upgradeThreshold (tierLimit cfg tr) ≤ b.count + 1 then
        (⟨b.windowStart, b.count + 1, b.tier, true⟩,
         ⟨true, tierLimit cfg tr, tierLimit cfg tr - (b.count + 1),
          b.windowStart + cfg.windowMs⟩,
         [RLJob.upgradeNotify iss rk (tierLimit cfg tr) (b.count + 1)])
      else
        (⟨b.windowStart, b.count + 1, b.tier, b.notifiedUpgrade⟩,
         ⟨true, tierLimit cfg tr, tierLimit cfg tr - (b.count + 1),
          b.windowStart + cfg.windowMs⟩, []) := by
  unfold stepBucket
  dsimp only
  rw [if_neg (show ¬ (b.windowStart + cfg.windowMs ≤ now) by omega),
    if_neg (not_le.mpr ha)]

/-- `consumeQ` is `consume` with the attempted jobs folded into the queue:
the two renderings of the source body agree. -/
lemma consumeQ_spec {Q : Type} (cfg : RateLimitConfig) (enq : Q → RLJob → Q)
    (q : Q) (st : RateLimitState) (iss : String) (tr : IssuerTier)
    (rk : String) (now : Nat) :
    consumeQ cfg enq q st iss tr rk now =
      ((consume cfg st iss tr rk now).result,
       (consume cfg st iss tr rk now).state,
       (consume cfg st iss tr rk now).jobs.foldl enq q) := by
  unfold consumeQ consume stepBucket
  cases mapGet st.usage (iss ++ ":" ++ rk) <;> dsimp only <;> split_ifs <;> rfl

/-- A uniform trace (one issuer, one route, one tier) is the bucket-level run,
and the touched bucket ends up stored under the key. -/
lemma consumeTrace_uniform (cfg : RateLimitConfig) (iss : String)
    (tr : IssuerTier) (rk : String) (st : RateLimitState) (times : List Nat) :
    (consumeTrace cfg st (uniformCalls iss tr rk times)).2 =
        (bucketRun cfg iss tr rk (mapGet st.usage (iss ++ ":" ++ rk)) times).2 ∧
      mapGet (consumeTrace cfg st (uniformCalls iss tr rk times)).1.usage
          (iss ++ ":" ++ rk) =
        (bucketRun cfg iss tr rk (mapGet st.usage (iss ++ ":" ++ rk)) times).1 := by
  induction times generalizing st with
  | nil => exact ⟨rfl, rfl⟩
  | cons t rest ih =>
      simp only [uniformCalls, List.map] at *
      simp only [consumeTrace, bucketRun, consume]
      have hget :
          mapGet
            (mapSet st.usage (iss ++ ":" ++ rk)
              (stepBucket cfg iss tr rk t (mapGet st.usage (iss ++ ":" ++ rk))).1)
            (iss ++ ":" ++ rk) =
          some (stepBucket cfg iss tr rk t (mapGet st.usage (iss ++ ":" ++ rk))).1 :=
        mapGet_mapSet_self _ _ _
      have := ih ⟨mapSet st.usage (iss ++ ":" ++ rk)
        (stepBucket cfg iss tr rk t (mapGet st.usage (iss ++ ":" ++ rk))).1⟩
      rw [hget] at this
      exact ⟨by rw [this.1], by rw [this.2]⟩

/-- Existential form of `stepBucket_allowed`, forgetting the notification
details. -/
lemma stepBucket_allowed_ex (cfg : RateLimitConfig) (iss : String)
    (tr : IssuerTier) (rk : String) (now : Nat) (b : UsageBucket)
    (hnr : now < b.windowStart + cfg.windowMs)
    (ha : b.count < tierLimit cfg tr) :
    ∃ nf jobs, stepBucket cfg iss tr rk now (some b) =
      (⟨b.windowStart, b.count + 1, b.tier, nf⟩,
       ⟨true, tierLimit cfg tr, tierLimit cfg tr - (b.count + 1),
        b.windowStart + cfg.windowMs⟩, jobs) := by
  rw [stepBucket_allowed cfg iss tr rk now b hnr ha]
  split_ifs
  · exact ⟨true, _, rfl⟩
  · exact ⟨b.notifiedUpgrade, _, rfl⟩

/-- The result the `i`-th in-window consume (0-indexed) returns when the
bucket held `c` at the start of the run. -/
def expectedResult (cfg : RateLimitConfig) (tr : IssuerTier) (ws c : Nat)
    (i : Nat) : RateLimitResult :=
  if c + i < tierLimit cfg tr then
    ⟨true, tierLimit cfg tr, tierLimit cfg tr - (c + i + 1), ws + cfg.windowMs⟩
  else
    ⟨false, tierLimit cfg tr, 0, ws + cfg.windowMs⟩

/-- Fixed-window saturation: a run of in-window consumes against one bucket
admits the first `limit - count` calls and denies the rest; the stored count
saturates at the limit and the window never moves. -/
lemma bucketRun_in_window (cfg : RateLimitConfig) (iss : String)
    (tr : IssuerTier) (rk : String) (b : UsageBucket) (times : List Nat)
    (hw : ∀ t ∈ times, t < b.windowStart + cfg.windowMs)
    (hc : b.count ≤ tierLimit cfg tr) :
    (∃ bF, (bucketRun cfg iss tr rk (some b) times).1 = some bF ∧
        bF.windowStart = b.windowStart ∧
        bF.count = min (b.count + times.length) (tierLimit cfg tr)) ∧
      (bucketRun cfg iss tr rk (some b) times).2.map Prod.fst =
        (List.range times.length).map
          (expectedResult cfg tr b.windowStart b.count) := by
  induction times generalizing b with
  | nil =>
      exact ⟨⟨b, rfl, rfl, by simp; omega⟩, by simp [bucketRun]⟩
  | cons t rest ih =>
      have hwt : t < b.windowStart + cfg.windowMs := hw t (by simp)
      have hrange : List.range (rest.length + 1) =
          0 :: (List.range rest.length).map Nat.succ :=
        List.range_succ_eq_map rest.length
      by_cases hd : tierLimit cfg tr ≤ b.count
      · have hbc : b.count = tierLimit cfg tr := le_antisymm hc hd
        have hstep := stepBucket_denied cfg iss tr rk t b hwt hd
        obtain ⟨⟨bF, h1, h2, h3⟩, h4⟩ :=
          ih b (fun t' ht' => hw t' (by simp [ht'])) hc
        constructor
        · refine ⟨bF, ?_, h2, ?_⟩
          · simp only [bucketRun, hstep]
            exact h1
          · rw [h3]
            simp only [List.length_cons]
            omega
        · simp only [bucketRun, hstep, List.length_cons, hrange, List.map_cons,
            List.map_map]
          congr 1
          · simp only [expectedResult, if_neg (show ¬ b.count + 0 <
              tierLimit cfg tr by omega)]
          · rw [h4]
            refine List.map_congr_left ?_
            intro i _
            simp only [Function.comp_apply, expectedResult, hbc]
            rw [if_neg (by omega), if_neg (by omega)]
      · push_neg at hd
        obtain ⟨nf, jobs, heq⟩ := stepBucket_allowed_ex cfg iss tr rk t b hwt hd
        obtain ⟨⟨bF, h1, h2, h3⟩, h4⟩ :=
          ih ⟨b.windowStart, b.count + 1, b.tier, nf⟩
            (fun t' ht' => hw t' (by simp [ht'])) hd
        constructor
        · refine ⟨bF, ?_, h2, ?_⟩
          · simp only [bucketRun, heq]
            exact h1
          · rw [h3]
            simp only [List.length_cons]
            omega
        · simp only [bucketRun, heq, List.length_cons, hrange, List.map_cons,
            List.map_map]
          congr 1
          · simp only [expectedResult, if_pos (show b.count + 0 <
              tierLimit cfg tr by omega)]
          · rw [h4]
            refine List.map_congr_left ?_
            intro i _
            simp only [Function.comp_apply, expectedResult]
            rw [show b.count + 1 + i = b.count + (i + 1) from by omega]

lemma bucketRun_length (cfg : RateLimitConfig) (iss : String) (tr : IssuerTier)
    (rk : String) (b? : Option UsageBucket) (times : List Nat) :
    (bucketRun cfg iss tr rk b? times).2.length = times.length := by
  induction times generalizing b? with
  | nil => rfl
  | cons t rest ih => simp [bucketRun, ih]

lemma consumeTrace_length (cfg : RateLimitConfig) (st : RateLimitState)
    (calls : List ConsumeCall) :
    (consumeTrace cfg st calls).2.length = calls.length := by
  induction calls generalizing st with
  | nil => rfl
  | cons c rest ih => simp [consumeTrace, ih]

/-- A PAID-tier call never attempts an upgrade-notification dispatch. -/
lemma stepBucket_paid_no_upgrade (cfg : RateLimitConfig) (iss : String)
    (rk : String) (now : Nat) (b? : Option UsageBucket) :
    ((stepBucket cfg iss IssuerTier.PAID rk now b?).2.2).countP
      RLJob.isUpgrade = 0 := by
  unfold stepBucket
  dsimp only
  split_ifs <;> simp_all [RLJob.isUpgrade]

/-- A whole PAID-tier run never attempts an upgrade-notification dispatch. -/
lemma bucketRun_paid_no_upgrade (cfg : RateLimitConfig) (iss : String)
    (rk : String) (b? : Option UsageBucket) (times : List Nat) :
    ∀ o ∈ (bucketRun cfg iss IssuerTier.PAID rk b? times).2,
      o.2.countP RLJob.isUpgrade = 0 := by
  induction times generalizing b? with
  | nil =>
      intro o ho
      simp [bucketRun] at ho
  | cons t rest ih =>
      intro o ho
      simp only [bucketRun, List.mem_cons] at ho
      rcases ho with ho | ho
      · rw [ho]
        exact stepBucket_paid_no_upgrade cfg iss rk t b?
      · exact ih _ o ho

/-- Once `notifiedUpgrade` is set, no later in-window consume dispatches the
upgrade notification again. -/
lemma bucketRun_notified_no_upgrade (cfg : RateLimitConfig) (iss : String)
    (tr : IssuerTier) (rk : String) (b : UsageBucket) (times : List Nat)
    (hw : ∀ t ∈ times, t < b.windowStart + cfg.windowMs)
    (hnf : b.notifiedUpgrade = true) :
    ∀ o ∈ (bucketRun cfg iss tr rk (some b) times).2,
      o.2.countP RLJob.isUpgrade = 0 := by
  induction times generalizing b with
  | nil =>
      intro o ho
      simp [bucketRun] at ho
  | cons t rest ih =>
      intro o ho
      have hwt : t < b.windowStart + cfg.windowMs := hw t (by simp)
      by_cases hd : tierLimit cfg tr ≤ b.count
      · rw [bucketRun, stepBucket_denied cfg iss tr rk t b hwt hd] at ho
        simp only [List.mem_cons] at ho
        rcases ho with ho | ho
        · rw [ho]
          simp [RLJob.isUpgrade]
        · exact ih b (fun t' ht' => hw t' (by simp [ht'])) hnf o ho
      · push_neg at hd
        rw [bucketRun, stepBucket_allowed cfg iss tr rk t b hwt hd,
          if_neg (by simp [hnf])] at ho
        simp only [List.mem_cons] at ho
        rcases ho with ho | ho
        · rw [ho]
          simp
        · exact ih ⟨b.windowStart, b.count + 1, b.tier, b.notifiedUpgrade⟩
            (fun t' ht' => hw t' (by simp [ht'])) hnf o ho

lemma upgradeThreshold_le (l : Nat) : upgradeThreshold l ≤ l := by
  unfold upgradeThreshold
  omega

/-- FREE-tier in-window run below the threshold: the upgrade notification is
dispatched exactly on the consume whose increment makes the count reach the
80% threshold, and never afterwards. -/
lemma bucketRun_free_upgrade (cfg : RateLimitConfig) (iss : String)
    (rk : String) (b : UsageBucket) (times : List Nat)
    (hw : ∀ t ∈ times, t < b.windowStart + cfg.windowMs)
    (hnf : b.notifiedUpgrade = false)
    (hct : b.count < upgradeThreshold cfg.freeLimit) :
    (bucketRun cfg iss IssuerTier.FREE rk (some b) times).2.map
        (fun o => o.2.countP RLJob.isUpgrade) =
      (List.range times.length).map
        (fun i => if b.count + i + 1 = upgradeThreshold cfg.freeLimit
          then 1 else 0) := by
  induction times generalizing b with
  | nil => simp [bucketRun]
  | cons t rest ih =>
      have hwt : t < b.windowStart + cfg.windowMs := hw t (by simp)
      have hthr := upgradeThreshold_le cfg.freeLimit
      have hd : b.count < tierLimit cfg IssuerTier.FREE := by
        rw [tierLimit_free]
        omega
      have hrange : List.range (rest.length + 1) =
          0 :: (List.range rest.length).map Nat.succ :=
        List.range_succ_eq_map rest.length
      have hstep := stepBucket_allowed cfg iss IssuerTier.FREE rk t b hwt hd
      rw [tierLimit_free] at hstep
      by_cases he : upgradeThreshold cfg.freeLimit = b.count + 1
      · rw [if_pos ⟨rfl, hnf, by omega⟩] at hstep
        simp only [bucketRun, hstep, List.length_cons, hrange, List.map_cons,
          List.map_map]
        congr 1
        · simp [RLJob.isUpgrade, he]
        · have hzero :=
            bucketRun_notified_no_upgrade cfg iss IssuerTier.FREE rk
              ⟨b.windowStart, b.count + 1, b.tier, true⟩ rest
              (fun t' ht' => hw t' (by simp [ht'])) rfl
          trans (List.replicate rest.length (0 : Nat))
          · rw [List.eq_replicate_iff]
            refine ⟨by simp [bucketRun_length], ?_⟩
            intro x hx
            simp only [List.mem_map] at hx
            obtain ⟨o, ho, hox⟩ := hx
            rw [← hox]
            exact hzero o ho
          · symm
            rw [List.eq_replicate_iff]
            refine ⟨by simp, ?_⟩
            intro x hx
            simp only [List.mem_map, List.mem_range] at hx
            obtain ⟨i, _, hix⟩ := hx
            rw [← hix]
            simp only [Function.comp_apply]
            rw [if_neg (by omega)]
      · rw [if_neg (fun hcond => absurd hcond.2.2 (by omega))] at hstep
        simp only [bucketRun, hstep, List.length_cons, hrange, List.map_cons,
          List.map_map]
        congr 1
        · simp only [List.countP_nil]
          rw [if_neg (by omega)]
        · have := ih ⟨b.windowStart, b.count + 1, b.tier, b.notifiedUpgrade⟩
            (fun t' ht' => hw t' (by simp [ht'])) hnf (by simp; omega)
          rw [this]
          refine List.map_congr_left ?_
          intro i _
          simp only [Function.comp_apply]
          rw [show b.count + 1 + i + 1 = b.count + (i + 1) + 1 from by omega]

lemma consume_result (cfg : RateLimitConfig) (st : RateLimitState)
    (iss : String) (tr : IssuerTier) (rk : String) (now : Nat) :
    (consume cfg st iss tr rk now).result =
      (stepBucket cfg iss tr rk now (mapGet st.usage (iss ++ ":" ++ rk))).2.1 :=
  rfl

lemma consume_state (cfg : RateLimitConfig) (st : RateLimitState)
    (iss : String) (tr : IssuerTier) (rk : String) (now : Nat) :
    (consume cfg st iss tr rk now).state =
      ⟨mapSet st.usage (iss ++ ":" ++ rk)
        (stepBucket cfg iss tr rk now (mapGet st.usage (iss ++ ":" ++ rk))).1⟩ :=
  rfl

lemma consume_jobs (cfg : RateLimitConfig) (st : RateLimitState)
    (iss : String) (tr : IssuerTier) (rk : String) (now : Nat) :
    (consume cfg st iss tr rk now).jobs =
      (stepBucket cfg iss tr rk now (mapGet st.usage (iss ++ ":" ++ rk))).2.2 :=
  rfl

/-- Each single consume attempts exactly one `EXCEEDED` dispatch when it
denies, and none when it allows. -/
lemma stepBucket_exceeded_count (cfg : RateLimitConfig) (iss : String)
    (tr : IssuerTier) (rk : String) (now : Nat) (b? : Option UsageBucket) :
    ((stepBucket cfg iss tr rk now b?).2.2).countP RLJob.isExceeded =
      if (stepBucket cfg iss tr rk now b?).2.1.allowed = true then 0 else 1 := by
  unfold stepBucket
  dsimp only
  split_ifs <;> simp_all [RLJob.isExceeded]

/-- Over a whole trace, the number of attempted `EXCEEDED` dispatches equals
the number of denied results. -/
lemma consumeTrace_exceeded (cfg : RateLimitConfig) (st : RateLimitState)
    (calls : List ConsumeCall) :
    ((consumeTrace cfg st calls).2.map
        (fun o => o.2.countP RLJob.isExceeded)).sum =
      (consumeTrace cfg st calls).2.countP (fun o => !o.1.allowed) := by
  induction calls generalizing st with
  | nil => rfl
  | cons c rest ih =>
      simp only [consumeTrace, List.map_cons, List.sum_cons, List.countP_cons]
      rw [ih]
      have hc := stepBucket_exceeded_count cfg c.issuerId c.tier c.routeKey
        c.now (mapGet st.usage (c.issuerId ++ ":" ++ c.routeKey))
      rw [← consume_jobs cfg st, ← consume_result cfg st] at hc
      cases hall : (consume cfg st c.issuerId c.tier c.routeKey c.now).result.allowed
      all_goals
        rw [hall] at hc
        simp [hc, hall]
        try omega

/-- From a list-level characterization `l.map f = (range n).map g`, read off
the value at each index. -/
lemma map_eq_range_map_get {α γ : Type} (l : List α) (f : α → γ) (n : Nat)
    (g : Nat → γ) (hmap : l.map f = (List.range n).map g) (i : Nat)
    (h : i < l.length) : f (l.get ⟨i, h⟩) = g i := by
  have hlen : l.length = n := by
    have := congrArg List.length hmap
    simpa using this
  have hi : i < (List.range n).length := by simpa [hlen] using h
  have h1 : (l.map f)[i]? = some (f (l.get ⟨i, h⟩)) := by
    rw [List.getElem?_map, List.getElem?_eq_getElem h]
    simp [List.get_eq_getElem]
  have h2 : ((List.range n).map g)[i]? = some (g i) := by
    rw [List.getElem?_map, List.getElem?_eq_getElem hi]
    simp
  rw [hmap, h2] at h1
  exact (Option.some_inj.mp h1).symm

/-- First consume into a fresh (just created or just reset) bucket with a
positive limit: allowed, count becomes 1, `resetAt` is one window ahead. -/
lemma stepBucket_fresh (cfg : RateLimitConfig) (iss : String) (tr : IssuerTier)
    (rk : String) (now : Nat) (hl : 1 ≤ tierLimit cfg tr) :
    ∃ nf jobs, stepBucket cfg iss tr rk now (some ⟨now, 0, tr, false⟩) =
      (⟨now, 1, tr, nf⟩,
       ⟨true, tierLimit cfg tr, tierLimit cfg tr - 1, now + cfg.windowMs⟩,
       jobs) := by
  unfold stepBucket
  dsimp only
  rw [ite_self]
  dsimp only
  rw [if_neg (by omega)]
  split_ifs
  · exact ⟨true, _, rfl⟩
  · exact ⟨false, _, rfl⟩

/-- The decision and the dispatched jobs do not read the tier stored in the
bucket: only the tier passed on the current call enters the limit. -/
lemma stepBucket_tier_blind (cfg : RateLimitConfig) (iss : String)
    (tr : IssuerTier) (rk : String) (now : Nat) (b : UsageBucket)
    (bt : IssuerTier) :
    (stepBucket cfg iss tr rk now
        (some ⟨b.windowStart, b.count, bt, b.notifiedUpgrade⟩)).2.1 =
      (stepBucket cfg iss tr rk now (some b)).2.1 ∧
    (stepBucket cfg iss tr rk now
        (some ⟨b.windowStart, b.count, bt, b.notifiedUpgrade⟩)).2.2 =
      (stepBucket cfg iss tr rk now (some b)).2.2 := by
  unfold stepBucket
  dsimp only
  split_ifs <;> exact ⟨rfl, rfl⟩

/-- Every cache entry points at an active stored issuer whose hash matches
the hashed key (an invariant of `resolveIssuer` against a fixed store). -/
def cacheSound (hashFn : String → String) (store : List StoredIssuer)
    (cache : List (String × CachedIssuer)) : Prop :=
  ∀ k e, mapGet cache k = some e →
    ∃ iss, findActiveIssuerByKeyHash store (hashFn k) = some iss ∧
      iss.id = e.issuerId

lemma cacheSound_nil (hashFn : String → String) (store : List StoredIssuer) :
    cacheSound hashFn store [] := by
  intro k e h
  simp [mapGet] at h

lemma cacheSound_step (hashFn : String → String) (store : List StoredIssuer)
    (cache : List (String × CachedIssuer)) (k : String) (t : Nat)
    (h : cacheSound hashFn store cache) :
    cacheSound hashFn store (resolveIssuer hashFn store cache k t).cache := by
  unfold resolveIssuer
  cases hm : mapGet cache k with
  | some cached =>
      by_cases hfresh : t < cached.cacheUntil
      · simpa [hfresh] using h
      · dsimp only
        rw [if_neg hfresh]
        cases hfind : findActiveIssuerByKeyHash store (hashFn k) with
        | none => exact h
        | some issuer =>
            intro k' e' hm'
            rcases mapGet_mapSet_or cache k k' _ e' hm' with ⟨hk, he⟩ | hold
            · exact ⟨issuer, hk ▸ hfind, by rw [he]⟩
            · exact h k' e' hold
  | none =>
      dsimp only
      cases hfind : findActiveIssuerByKeyHash store (hashFn k) with
      | none => exact h
      | some issuer =>
          intro k' e' hm'
          rcases mapGet_mapSet_or cache k k' _ e' hm' with ⟨hk, he⟩ | hold
          · exact ⟨issuer, hk ▸ hfind, by rw [he]⟩
          · exact h k' e' hold

lemma cacheSound_trace (hashFn : String → String) (store : List StoredIssuer)
    (cache : List (String × CachedIssuer)) (calls : List (String × Nat))
    (h : cacheSound hashFn store cache) :
    cacheSound hashFn store (resolveTrace hashFn store cache calls) := by
  induction calls generalizing cache with
  | nil => exact h
  | cons c rest ih =>
      exact ih _ (cacheSound_step hashFn store cache c.1 c.2 h)

/-- On a sound cache, a successful resolution implies the fixed store holds a
matching active issuer. -/
lemma resolveIssuer_success_sound (hashFn : String → String)
    (store : List StoredIssuer) (cache : List (String × CachedIssuer))
    (k : String) (t : Nat) (ctx : IssuerContext)
    (hs : cacheSound hashFn store cache)
    (hr : (resolveIssuer hashFn store cache k t).result = some ctx) :
    ∃ iss, findActiveIssuerByKeyHash store (hashFn k) = some iss ∧
      iss.isActive = true ∧ iss.apiKeyHash = some (hashFn k) ∧
      iss.id = ctx.id := by
  have hprop : ∀ iss, findActiveIssuerByKeyHash store (hashFn k) = some iss →
      iss.isActive = true ∧ iss.apiKeyHash = some (hashFn k) := by
    intro iss hfind
    have := List.find?_some hfind
    simp only [Bool.and_eq_true, beq_iff_eq] at this
    exact this
  unfold resolveIssuer at hr
  cases hm : mapGet cache k with
  | some cached =>
      rw [hm] at hr
      dsimp only at hr
      by_cases hfresh : t < cached.cacheUntil
      · rw [if_pos hfresh] at hr
        dsimp only at hr
        obtain ⟨iss, hfind, hid⟩ := hs k cached hm
        obtain ⟨ha, hh⟩ := hprop iss hfind
        refine ⟨iss, hfind, ha, hh, ?_⟩
        rw [hid]
        rw [← Option.some_inj.mp hr]
      · rw [if_neg hfresh] at hr
        dsimp only at hr
        cases hfind : findActiveIssuerByKeyHash store (hashFn k) with
        | none => rw [hfind] at hr; exact absurd hr (by simp)
        | some issuer =>
            rw [hfind] at hr
            dsimp only at hr
            obtain ⟨ha, hh⟩ := hprop issuer hfind
            refine ⟨issuer, rfl, ha, hh, ?_⟩
            rw [← Option.some_inj.mp hr]
  | none =>
      rw [hm] at hr
      dsimp only at hr
      cases hfind : findActiveIssuerByKeyHash store (hashFn k) with
      | none => rw [hfind] at hr; exact absurd hr (by simp)
      | some issuer =>
          rw [hfind] at hr
          dsimp only at hr
          obtain ⟨ha, hh⟩ := hprop issuer hfind
          refine ⟨issuer, rfl, ha, hh, ?_⟩
          rw [← Option.some_inj.mp hr]

/-- A resolution that performed the durable lookup and succeeded leaves a
cache entry expiring exactly five minutes after the lookup. -/
lemma resolveIssuer_lookup_cached (hashFn : String → String)
    (store : List StoredIssuer) (cache : List (String × CachedIssuer))
    (k : String) (t : Nat) (ctx : IssuerContext)
    (hl : (resolveIssuer hashFn store cache k t).didLookup = true)
    (hr : (resolveIssuer hashFn store cache k t).result = some ctx) :
    mapGet (resolveIssuer hashFn store cache k t).cache k =
      some ⟨ctx.id, ctx.tier, t + 5 * 60000⟩ := by
  unfold resolveIssuer at hl hr ⊢
  cases hm : mapGet cache k with
  | some cached =>
      rw [hm] at hl hr
      dsimp only at hl hr ⊢
      by_cases hfresh : t < cached.cacheUntil
      · rw [if_pos hfresh] at hl
        exact absurd hl (by simp)
      · rw [if_neg hfresh] at hl hr ⊢
        dsimp only at hl hr ⊢
        cases hfind : findActiveIssuerByKeyHash store (hashFn k) with
        | none =>
            rw [hfind] at hr
            exact absurd hr (by simp)
        | some issuer =>
            rw [hfind] at hr
            dsimp only at hr ⊢
            rw [← Option.some_inj.mp hr]
            exact mapGet_mapSet_self cache k _
  | none =>
      rw [hm] at hl hr
      dsimp only at hl hr ⊢
      cases hfind : findActiveIssuerByKeyHash store (hashFn k) with
      | none =>
          rw [hfind] at hr
          exact absurd hr (by simp)
      | some issuer =>
          rw [hfind] at hr
          dsimp only at hr ⊢
          rw [← Option.some_inj.mp hr]
          exact mapGet_mapSet_self cache k _

/-- A call against a cache holding a fresh entry is served from the cache. -/
lemma resolveIssuer_hit (hashFn : String → String) (store : List StoredIssuer)
    (cache : List (String × CachedIssuer)) (k : String) (t : Nat)
    (e : CachedIssuer) (hm : mapGet cache k = some e) (hfresh : t < e.cacheUntil) :
    resolveIssuer hashFn store cache k t =
      ⟨some ⟨e.issuerId, e.tier⟩, cache, false⟩ := by
  unfold resolveIssuer
  rw [hm]
  dsimp only
  rw [if_pos hfresh]

/-- A call against a cache whose entry for the key has expired performs the
durable lookup. -/
lemma resolveIssuer_expired_lookup (hashFn : String → String)
    (store : List StoredIssuer) (cache : List (String × CachedIssuer))
    (k : String) (t : Nat) (e : CachedIssuer) (hm : mapGet cache k = some e)
    (hstale : e.cacheUntil ≤ t) :
    (resolveIssuer hashFn store cache k t).didLookup = true := by
  unfold resolveIssuer
  rw [hm]
  dsimp only
  rw [if_neg (by omega)]
  cases hfind : findActiveIssuerByKeyHash store (hashFn k) <;> rfl

/-! ## Claim theorems -/

/-- C1: for a FREE-tier issuer on one route, a run of consumes inside one
window (first call creates the bucket at `t0`) admits exactly the first
`freeLimit` calls; every later call in the window returns the identical
`{allowed := false, limit := freeLimit, remaining := 0, resetAt := t0 + windowMs}`
and the stored count stays saturated at `freeLimit`. -/
theorem free_tier_denial_idempotent (cfg : RateLimitConfig) (iss : String)
    (rk : String) (t0 : Nat) (rest : List Nat)
    (hw : ∀ t ∈ rest, t < t0 + cfg.windowMs) (hwpos : 0 < cfg.windowMs) :
    (∀ i, (h : i < (consumeTrace cfg ⟨[]⟩
        (uniformCalls iss IssuerTier.FREE rk (t0 :: rest))).2.length) →
      (cfg.freeLimit ≤ i →
        ((consumeTrace cfg ⟨[]⟩
            (uniformCalls iss IssuerTier.FREE rk (t0 :: rest))).2.get ⟨i, h⟩).1 =
          ⟨false, cfg.freeLimit, 0, t0 + cfg.windowMs⟩) ∧
      (i < cfg.freeLimit →
        ((consumeTrace cfg ⟨[]⟩
            (uniformCalls iss IssuerTier.FREE rk (t0 :: rest))).2.get
          ⟨i, h⟩).1.allowed = true)) ∧
    ∃ bF, mapGet (consumeTrace cfg ⟨[]⟩
        (uniformCalls iss IssuerTier.FREE rk (t0 :: rest))).1.usage
        (iss ++ ":" ++ rk) = some bF ∧
      bF.count = min (rest.length + 1) cfg.freeLimit := by
  have hbridge := consumeTrace_uniform cfg iss IssuerTier.FREE rk ⟨[]⟩ (t0 :: rest)
  have hnone : mapGet (RateLimitState.mk []).usage (iss ++ ":" ++ rk) = none := rfl
  rw [hnone] at hbridge
  have hfreshrun : bucketRun cfg iss IssuerTier.FREE rk none (t0 :: rest) =
      bucketRun cfg iss IssuerTier.FREE rk
        (some ⟨t0, 0, IssuerTier.FREE, false⟩) (t0 :: rest) := by
    simp only [bucketRun, stepBucket_none]
  rw [hfreshrun] at hbridge
  have hwin : ∀ t ∈ (t0 :: rest),
      t < (⟨t0, 0, IssuerTier.FREE, false⟩ : UsageBucket).windowStart +
        cfg.windowMs := by
    intro t ht
    rcases List.mem_cons.mp ht with h | h
    · subst h
      simpa using hwpos
    · simpa using hw t h
  obtain ⟨⟨bF, hb1, hb2, hb3⟩, hmap⟩ :=
    bucketRun_in_window cfg iss IssuerTier.FREE rk
      ⟨t0, 0, IssuerTier.FREE, false⟩ (t0 :: rest) hwin (by simp)
  have hmap' : (consumeTrace cfg ⟨[]⟩
      (uniformCalls iss IssuerTier.FREE rk (t0 :: rest))).2.map Prod.fst =
      (List.range (t0 :: rest).length).map
        (expectedResult cfg IssuerTier.FREE t0 0) := by
    rw [hbridge.1]
    exact hmap
  constructor
  · intro i h
    have hval := map_eq_range_map_get _ Prod.fst _ _ hmap' i h
    constructor
    · intro hge
      rw [hval]
      unfold expectedResult
      rw [tierLimit_free, if_neg (by omega)]
    · intro hlt
      rw [hval]
      unfold expectedResult
      rw [tierLimit_free, if_pos (by omega)]
  · refine ⟨bF, ?_, ?_⟩
    · rw [hbridge.2, hb1]
    · rw [hb3]
      simp only [tierLimit_free, List.length_cons]
      omega

/-- C1 witness: `freeLimit = 2`, four in-window consumes; the saturated count
is `min 4 2 = 2`. -/
theorem free_tier_denial_idempotent_witness :
    (∀ t ∈ [1, 2, 3], t < 0 + (1000 : Nat)) ∧
    ∃ bF, mapGet (consumeTrace ⟨1000, 2, 5⟩ ⟨[]⟩
        (uniformCalls "i" IssuerTier.FREE "r" (0 :: [1, 2, 3]))).1.usage
        ("i" ++ ":" ++ "r") = some bF ∧ bF.count = min (3 + 1) 2 :=
  ⟨by decide, (free_tier_denial_idempotent ⟨1000, 2, 5⟩ "i" "r" 0 [1, 2, 3]
    (by decide) (by decide)).2⟩

/-- Fixed inputs exhibiting the C2 counterexample: two FREE consumes saturate
the bucket (freeLimit = 2) mid-window. -/
def c2cfg : RateLimitConfig := ⟨60000, 2, 5⟩

/-- State after two FREE-tier consumes on `"iss":"r"` at times 0 and 1. -/
def c2state : RateLimitState :=
  (consumeTrace c2cfg ⟨[]⟩ (uniformCalls "iss" IssuerTier.FREE "r" [0, 1])).1

/-- C2 counterexample: the bucket stores `tier = FREE` and is saturated at the
FREE limit (`count = 2 = freeLimit`), yet a mid-window consume passing PAID is
allowed with `limit = paidLimit = 5` — the enforced limit followed the tier
passed on the call, not the tier stored in the bucket at window start. -/
theorem midwindow_tier_change_applies_immediately :
    (mapGet c2state.usage "iss:r").map UsageBucket.tier =
        some IssuerTier.FREE ∧
      (mapGet c2state.usage "iss:r").map UsageBucket.count = some 2 ∧
      (consume c2cfg c2state "iss" IssuerTier.PAID "r" 2).result =
        ⟨true, 5, 2, 60000⟩ := by
  decide

/-- C2 amended: the limit `consume` enforces is always derived from the tier
passed on the current call; the tier stored in the bucket influences neither
the result nor the dispatched jobs, and is refreshed from the caller when the
window resets. -/
theorem enforced_limit_from_passed_tier (cfg : RateLimitConfig)
    (st1 st2 : RateLimitState) (iss : String) (tr bt : IssuerTier)
    (rk : String) (now : Nat) (b : UsageBucket)
    (h1 : mapGet st1.usage (iss ++ ":" ++ rk) = some b)
    (h2 : mapGet st2.usage (iss ++ ":" ++ rk) =
      some ⟨b.windowStart, b.count, bt, b.notifiedUpgrade⟩) :
    (consume cfg st2 iss tr rk now).result =
        (consume cfg st1 iss tr rk now).result ∧
      (consume cfg st2 iss tr rk now).jobs =
        (consume cfg st1 iss tr rk now).jobs ∧
      (consume cfg st1 iss tr rk now).result.limit = tierLimit cfg tr ∧
      (b.windowStart + cfg.windowMs ≤ now →
        (mapGet (consume cfg st1 iss tr rk now).state.usage
            (iss ++ ":" ++ rk)).map UsageBucket.tier = some tr) := by
  have hres1 := consume_result cfg st1 iss tr rk now
  have hres2 := consume_result cfg st2 iss tr rk now
  have hjobs1 := consume_jobs cfg st1 iss tr rk now
  have hjobs2 := consume_jobs cfg st2 iss tr rk now
  rw [h1] at hres1 hjobs1
  rw [h2] at hres2 hjobs2
  obtain ⟨hrb, hjb⟩ := stepBucket_tier_blind cfg iss tr rk now b bt
  refine ⟨?_, ?_, ?_, ?_⟩
  · rw [hres1, hres2, hrb]
  · rw [hjobs1, hjobs2, hjb]
  · rw [hres1]
    unfold stepBucket
    dsimp only
    split_ifs <;> rfl
  · intro hexp
    have hst := consume_state cfg st1 iss tr rk now
    rw [h1, stepBucket_reset cfg iss tr rk now b hexp] at hst
    rw [hst]
    dsimp only
    rw [mapGet_mapSet_self]
    simp only [Option.map_some']
    have : ((stepBucket cfg iss tr rk now
        (some ⟨now, 0, tr, false⟩)).1).tier = tr := by
      unfold stepBucket
      dsimp only
      rw [ite_self]
      split_ifs <;> rfl
    rw [this]

/-- C2 amended witness: at window expiry the stored tier is refreshed to the
tier passed on the call (PAID), and the stored tier never changes the result. -/
theorem enforced_limit_from_passed_tier_witness :
    ((0 : Nat) + 60000 ≤ 60000) ∧
    (mapGet (consume c2cfg c2state "iss" IssuerTier.PAID "r"
        60000).state.usage ("iss" ++ ":" ++ "r")).map UsageBucket.tier =
      some IssuerTier.PAID :=
  ⟨by decide,
    (enforced_limit_from_passed_tier c2cfg c2state c2state "iss"
      IssuerTier.PAID IssuerTier.FREE "r" 60000
      ⟨0, 2, IssuerTier.FREE, true⟩ (by decide) (by decide)).2.2.2
      (by decide)⟩

/-- C3: in a single window served from a fresh bucket, a FREE-tier run
dispatches the upgrade notification exactly on the consume whose increment
makes the count reach `floor(limit * 0.8)` (the `i`-th call, 0-indexed, fires
iff `i + 1` equals the threshold) and never again in the window; a PAID-tier
run never dispatches it. -/
theorem upgrade_notice_once_per_window (cfg : RateLimitConfig) (iss : String)
    (rk : String) (t0 : Nat) (rest : List Nat)
    (hw : ∀ t ∈ rest, t < t0 + cfg.windowMs) (hwpos : 0 < cfg.windowMs)
    (ht : 1 ≤ upgradeThreshold cfg.freeLimit) :
    (∀ i, (h : i < (consumeTrace cfg ⟨[]⟩
        (uniformCalls iss IssuerTier.FREE rk (t0 :: rest))).2.length) →
      ((consumeTrace cfg ⟨[]⟩
          (uniformCalls iss IssuerTier.FREE rk (t0 :: rest))).2.get
        ⟨i, h⟩).2.countP RLJob.isUpgrade =
        (if i + 1 = upgradeThreshold cfg.freeLimit then 1 else 0)) ∧
    (∀ o ∈ (consumeTrace cfg ⟨[]⟩
        (uniformCalls iss IssuerTier.PAID rk (t0 :: rest))).2,
      o.2.countP RLJob.isUpgrade = 0) := by
  constructor
  · have hbridge :=
      consumeTrace_uniform cfg iss IssuerTier.FREE rk ⟨[]⟩ (t0 :: rest)
    have hnone : mapGet (RateLimitState.mk []).usage (iss ++ ":" ++ rk) = none := rfl
    rw [hnone] at hbridge
    have hfreshrun : bucketRun cfg iss IssuerTier.FREE rk none (t0 :: rest) =
        bucketRun cfg iss IssuerTier.FREE rk
          (some ⟨t0, 0, IssuerTier.FREE, false⟩) (t0 :: rest) := by
      simp only [bucketRun, stepBucket_none]
    rw [hfreshrun] at hbridge
    have hwin : ∀ t ∈ (t0 :: rest),
        t < (⟨t0, 0, IssuerTier.FREE, false⟩ : UsageBucket).windowStart +
          cfg.windowMs := by
      intro t htm
      rcases List.mem_cons.mp htm with h | h
      · subst h
        simpa using hwpos
      · simpa using hw t h
    have hmap := bucketRun_free_upgrade cfg iss rk
      ⟨t0, 0, IssuerTier.FREE, false⟩ (t0 :: rest) hwin rfl (by simpa using ht)
    have hmap' : (consumeTrace cfg ⟨[]⟩
        (uniformCalls iss IssuerTier.FREE rk (t0 :: rest))).2.map
          (fun o => o.2.countP RLJob.isUpgrade) =
        (List.range (t0 :: rest).length).map
          (fun i => if 0 + i + 1 = upgradeThreshold cfg.freeLimit
            then 1 else 0) := by
      rw [hbridge.1]
      exact hmap
    intro i h
    have hval := map_eq_range_map_get _
      (fun o => o.2.countP RLJob.isUpgrade) _ _ hmap' i h
    simpa using hval
  · have hbridge :=
      consumeTrace_uniform cfg iss IssuerTier.PAID rk ⟨[]⟩ (t0 :: rest)
    have hnone : mapGet (RateLimitState.mk []).usage (iss ++ ":" ++ rk) = none := rfl
    rw [hnone] at hbridge
    intro o ho
    rw [hbridge.1] at ho
    exact bucketRun_paid_no_upgrade cfg iss rk none (t0 :: rest) o ho

/-- C3 witness: `freeLimit = 5`, threshold `floor(5 * 0.8) = 4`; in a run of
six in-window consumes the fourth call (index 3) dispatches the notification. -/
theorem upgrade_notice_once_per_window_witness :
    (1 ≤ upgradeThreshold 5) ∧
    ((consumeTrace ⟨1000, 5, 50⟩ ⟨[]⟩
        (uniformCalls "i" IssuerTier.FREE "r" (0 :: [1, 2, 3, 4, 5]))).2.get
      ⟨3, by decide⟩).2.countP RLJob.isUpgrade = 1 :=
  ⟨by decide,
    (upgrade_notice_once_per_window ⟨1000, 5, 50⟩ "i" "r" 0 [1, 2, 3, 4, 5]
      (by decide) (by decide) (by decide)).1 3 (by decide)⟩

/-- C4: a consume at `now` past the stored window (`windowStart + windowMs ≤
now`) resets the bucket before the limit check: with a positive limit the call
is allowed, the stored bucket restarts at `windowStart = now` with `count = 1`,
and `resetAt` is exactly one window after the new `windowStart`. -/
theorem window_rollover_reset (cfg : RateLimitConfig) (st : RateLimitState)
    (iss : String) (tr : IssuerTier) (rk : String) (now : Nat) (b : UsageBucket)
    (hb : mapGet st.usage (iss ++ ":" ++ rk) = some b)
    (hexp : b.windowStart + cfg.windowMs ≤ now)
    (hl : 1 ≤ tierLimit cfg tr) :
    (consume cfg st iss tr rk now).result =
        ⟨true, tierLimit cfg tr, tierLimit cfg tr - 1, now + cfg.windowMs⟩ ∧
      ∃ bF, mapGet (consume cfg st iss tr rk now).state.usage
          (iss ++ ":" ++ rk) = some bF ∧
        bF.windowStart = now ∧ bF.count = 1 ∧ bF.tier = tr := by
  obtain ⟨nf, jobs, hstep⟩ := stepBucket_fresh cfg iss tr rk now hl
  have hres := consume_result cfg st iss tr rk now
  have hst := consume_state cfg st iss tr rk now
  rw [hb, stepBucket_reset cfg iss tr rk now b hexp, hstep] at hres hst
  constructor
  · rw [hres]
  · refine ⟨⟨now, 1, tr, nf⟩, ?_, rfl, rfl, rfl⟩
    rw [hst]
    exact mapGet_mapSet_self st.usage (iss ++ ":" ++ rk) ⟨now, 1, tr, nf⟩

/-- C4 witness: a bucket saturated in the window starting at 0 is reset by a
consume at `now = 1000` (window 1000ms): allowed, `count = 1`, `resetAt = 2000`. -/
theorem window_rollover_reset_witness :
    ((0 : Nat) + 1000 ≤ 1000) ∧
    (consume ⟨1000, 2, 5⟩ ⟨[("i:r", ⟨0, 2, IssuerTier.FREE, true⟩)]⟩ "i"
        IssuerTier.FREE "r" 1000).result = ⟨true, 2, 1, 2000⟩ :=
  ⟨by decide,
    (window_rollover_reset ⟨1000, 2, 5⟩ ⟨[("i:r", ⟨0, 2, IssuerTier.FREE, true⟩)]⟩
      "i" IssuerTier.FREE "r" 1000 ⟨0, 2, IssuerTier.FREE, true⟩
      (by decide) (by decide) (by decide)).1⟩

/-- Shared fixture: one active stored issuer whose stored hash matches the
hashed key "K" under the identity stand-in hash. -/
def demoStore : List StoredIssuer :=
  [⟨"I", some "K", true, some IssuerTier.FREE⟩]

/-- Identity stand-in for the one-way hash in concrete scenarios. -/
def idHash : String → String := fun s => s

/-- Cache populated by a successful durable lookup of "K" at time 0
(its entry expires at 300000). -/
def warmCache : List (String × CachedIssuer) :=
  (resolveIssuer idHash demoStore [] "K" 0).cache

/-- C5 counterexample: `resolveIssuer` succeeds (via cache hit) at
`t = 299999`, yet the very next call at `t = 300000` — strictly before
`299999 + 5` minutes — performs the durable lookup again.  The TTL is
anchored at the lookup time (0), not at the last successful resolution, so
"succeeds at `t` implies no lookup strictly before `t + 5` minutes" is false. -/
theorem cache_hit_does_not_extend_ttl :
    (resolveIssuer idHash demoStore warmCache "K" 299999).result.isSome =
        true ∧
      (resolveIssuer idHash demoStore warmCache "K" 299999).didLookup =
        false ∧
      ((300000 : Nat) < 299999 + 5 * 60000) ∧
      (resolveIssuer idHash demoStore
        (resolveIssuer idHash demoStore warmCache "K" 299999).cache
        "K" 300000).didLookup = true := by
  decide

/-- C5 amended: if a call at time `t` performs the durable lookup and
succeeds, then any call for the same key strictly before `t + 5` minutes —
whatever the store holds by then and whatever hash is used — is served from
the cache (no durable lookup, same identity, cache untouched), and any call
at or after `t + 5` minutes performs the durable lookup again, so two
resolutions within 5 minutes starting from an absent or expired entry perform
the durable lookup exactly once. -/
theorem lookup_success_caches_five_minutes (hashFn : String → String)
    (store : List StoredIssuer) (cache : List (String × CachedIssuer))
    (k : String) (t : Nat) (ctx : IssuerContext)
    (hl : (resolveIssuer hashFn store cache k t).didLookup = true)
    (hr : (resolveIssuer hashFn store cache k t).result = some ctx) :
    (∀ (store2 : List StoredIssuer) (hf2 : String → String) (t2 : Nat),
      t2 < t + 5 * 60000 →
        resolveIssuer hf2 store2 (resolveIssuer hashFn store cache k t).cache
            k t2 =
          ⟨some ctx, (resolveIssuer hashFn store cache k t).cache, false⟩) ∧
    (∀ (store2 : List StoredIssuer) (hf2 : String → String) (t2 : Nat),
      t + 5 * 60000 ≤ t2 →
        (resolveIssuer hf2 store2
          (resolveIssuer hashFn store cache k t).cache k t2).didLookup =
          true) := by
  have hc := resolveIssuer_lookup_cached hashFn store cache k t ctx hl hr
  constructor
  · intro store2 hf2 t2 ht2
    rw [resolveIssuer_hit hf2 store2 _ k t2 _ hc ht2]
  · intro store2 hf2 t2 ht2
    exact resolveIssuer_expired_lookup hf2 store2 _ k t2 _ hc ht2

/-- C5 amended witness: lookup at 0, cache hit at 5, re-lookup at 300000. -/
theorem lookup_success_caches_five_minutes_witness :
    ((resolveIssuer idHash demoStore [] "K" 0).didLookup = true) ∧
    ((5 : Nat) < 0 + 5 * 60000) ∧
    resolveIssuer idHash demoStore
        (resolveIssuer idHash demoStore [] "K" 0).cache "K" 5 =
      ⟨some ⟨"I", IssuerTier.FREE⟩,
       (resolveIssuer idHash demoStore [] "K" 0).cache, false⟩ ∧
    (resolveIssuer idHash demoStore
      (resolveIssuer idHash demoStore [] "K" 0).cache "K" 300000).didLookup =
      true :=
  ⟨by decide, by decide,
    (lookup_success_caches_five_minutes idHash demoStore [] "K" 0
      ⟨"I", IssuerTier.FREE⟩ (by decide) (by decide)).1 demoStore idHash 5
      (by decide),
    (lookup_success_caches_five_minutes idHash demoStore [] "K" 0
      ⟨"I", IssuerTier.FREE⟩ (by decide) (by decide)).2 demoStore idHash
      300000 (by decide)⟩

/-- C6 counterexample: the cache was warmed while the store held an active
issuer for "K"; after the store changes (here: empties), a resolution still
succeeds from the cache although the store at the time of the call holds no
active issuer with a matching hash. -/
theorem stale_cache_resolves_after_store_change :
    (resolveIssuer idHash ([] : List StoredIssuer) warmCache "K" 1).result =
        some ⟨"I", IssuerTier.FREE⟩ ∧
      findActiveIssuerByKeyHash ([] : List StoredIssuer) (idHash "K") =
        none := by
  decide

/-- C6 amended: against a durable store that does not change between calls,
in every cache state reachable by `resolveIssuer` calls from the empty cache,
a successful resolution implies the store holds an active issuer whose stored
hash equals the hash of the presented key and whose id is the returned id. -/
theorem fixed_store_success_implies_active_issuer (hashFn : String → String)
    (store : List StoredIssuer) (calls : List (String × Nat)) (k : String)
    (t : Nat) (ctx : IssuerContext)
    (hr : (resolveIssuer hashFn store (resolveTrace hashFn store [] calls)
      k t).result = some ctx) :
    ∃ iss, findActiveIssuerByKeyHash store (hashFn k) = some iss ∧
      iss.isActive = true ∧ iss.apiKeyHash = some (hashFn k) ∧
      iss.id = ctx.id :=
  resolveIssuer_success_sound hashFn store _ k t ctx
    (cacheSound_trace hashFn store [] calls (cacheSound_nil hashFn store)) hr

/-- C6 amended witness: warm the cache at time 0, resolve from cache at
time 1; the (unchanged) store holds the matching active issuer. -/
theorem fixed_store_success_implies_active_issuer_witness :
    ∃ iss, findActiveIssuerByKeyHash demoStore (idHash "K") = some iss ∧
      iss.isActive = true ∧ iss.apiKeyHash = some (idHash "K") ∧
      iss.id = "I" :=
  fixed_store_success_implies_active_issuer idHash demoStore [("K", 0)] "K" 1
    ⟨"I", IssuerTier.FREE⟩ (by decide)

/-- A request for which the router exposed no matched route pattern. -/
def rawUrlRequest : GuardRequest :=
  ⟨none, "/certificates/abc123", "/certificates/abc123"⟩

/-- C7 counterexample: when `request.route?.path` is absent the guard falls
back to `originalUrl` — the raw URL with the concrete path parameter — and
that raw URL becomes the route component of the bucket key. -/
theorem route_key_falls_back_to_raw_url :
    rawUrlRequest.routePath = none ∧
      selectRouteKey rawUrlRequest = "/certificates/abc123" ∧
      (mapGet (consume ⟨60000, 60, 600⟩ ⟨[]⟩ "iss1" IssuerTier.FREE
          (selectRouteKey rawUrlRequest) 0).state.usage
        "iss1:/certificates/abc123").isSome = true := by
  decide

/-- C7 amended: whenever the router exposes a non-empty matched route
pattern, the guard uses exactly that pattern as the route key; only when it
is absent (or empty) does it fall back to `originalUrl`, then `url`. -/
theorem route_key_uses_route_pattern (r : GuardRequest) (p : String)
    (hp : r.routePath = some p) (hne : p ≠ "") :
    selectRouteKey r = p := by
  unfold selectRouteKey
  rw [hp]
  dsimp only
  rw [if_neg hne]

/-- C7 amended witness: the matched pattern, not the raw URL, is selected. -/
theorem route_key_uses_route_pattern_witness :
    ((GuardRequest.mk (some "/certificates/:id") "/certificates/abc123"
        "/certificates/abc123").routePath = some "/certificates/:id") ∧
    selectRouteKey ⟨some "/certificates/:id", "/certificates/abc123",
        "/certificates/abc123"⟩ = "/certificates/:id" :=
  ⟨rfl, route_key_uses_route_pattern
    ⟨some "/certificates/:id", "/certificates/abc123", "/certificates/abc123"⟩
    "/certificates/:id" rfl (by decide)⟩

/-- C8: the returned `RateLimitResult` and the bucket state after `consume`
are independent of the queue: any two enqueue behaviours (including dropping
every job, i.e. total dispatch failure) over any queue representations yield
the identical result and identical state, both equal to those of `consume`. -/
theorem decision_independent_of_queue :
    ∀ (Q1 Q2 : Type) (cfg : RateLimitConfig) (enq1 : Q1 → RLJob → Q1)
      (enq2 : Q2 → RLJob → Q2) (q1 : Q1) (q2 : Q2) (st : RateLimitState)
      (iss : String) (tr : IssuerTier) (rk : String) (now : Nat),
      (consumeQ cfg enq1 q1 st iss tr rk now).1 =
          (consumeQ cfg enq2 q2 st iss tr rk now).1 ∧
        (consumeQ cfg enq1 q1 st iss tr rk now).2.1 =
          (consumeQ cfg enq2 q2 st iss tr rk now).2.1 ∧
        (consumeQ cfg enq1 q1 st iss tr rk now).1 =
          (consume cfg st iss tr rk now).result ∧
        (consumeQ cfg enq1 q1 st iss tr rk now).2.1 =
          (consume cfg st iss tr rk now).state := by
  intro Q1 Q2 cfg enq1 enq2 q1 q2 st iss tr rk now
  rw [consumeQ_spec, consumeQ_spec]
  exact ⟨rfl, rfl, rfl, rfl⟩

/-- Fixture for C9: the default config and the state after one consume on the
parameterized route pattern `/certificates/:id`. -/
def c9cfg : RateLimitConfig := ⟨60000, 60, 600⟩

/-- State holding one bucket under the key `iss1:/certificates/:id`. -/
def c9state : RateLimitState :=
  (consume c9cfg ⟨[]⟩ "iss1" IssuerTier.FREE "/certificates/:id" 0).state

/-- C9 (code bug): `getUsageSummary` recovers the route by
`key.split(':')[1]`, so a route pattern containing a colon — exactly what
parameterized route patterns look like — is truncated at its first colon: the
bucket created under route `/certificates/:id` is reported with route
`/certificates/`, not the route key under which it was created. -/
theorem usage_summary_route_truncated_at_colon :
    (getUsageSummary c9cfg c9state 1).map UsageSummaryRow.route =
        ["/certificates/"] ∧
      (getUsageSummary c9cfg c9state 1).map UsageSummaryRow.issuerId =
        ["iss1"] ∧
      ("/certificates/" : String) ≠ "/certificates/:id" := by
  decide

/-- C10: every denied `consume` attempts exactly one `EXCEEDED` enqueue and
every allowed one attempts none, so over any call sequence the number of
`EXCEEDED` jobs equals the number of denials — one per denial, never
deduplicated within a window. -/
theorem every_denial_enqueues_exceeded :
    (∀ (cfg : RateLimitConfig) (st : RateLimitState) (iss : String)
        (tr : IssuerTier) (rk : String) (now : Nat),
      (consume cfg st iss tr rk now).jobs.countP RLJob.isExceeded =
        (if (consume cfg st iss tr rk now).result.allowed = true
          then 0 else 1)) ∧
    (∀ (cfg : RateLimitConfig) (st : RateLimitState)
        (calls : List ConsumeCall),
      ((consumeTrace cfg st calls).2.map
          (fun o => o.2.countP RLJob.isExceeded)).sum =
        (consumeTrace cfg st calls).2.countP (fun o => !o.1.allowed)) := by
  constructor
  · intro cfg st iss tr rk now
    rw [consume_jobs, consume_result]
    exact stepBucket_exceeded_count cfg iss tr rk now _
  · intro cfg st calls
    exact consumeTrace_exceeded cfg st calls

end StellarCert
